import Mathlib

/-!
# Verification of the PhantomBand tabular signal normalizer

Shallow embedding of the CSV/TXT spectrum parser (`parseAndAnalyzeCsv` and its
helpers from the adaptive-delimiter variant of the parser module, the variant
the design document describes as the capable one).  JavaScript numbers are
modelled as exact rationals (`ℚ`): every numeric literal the parser accepts is
a decimal string, whose exact value is a rational; `NaN` outcomes are modelled
with `Option`, a `none` standing for `NaN`.  JavaScript's `Array.prototype.sort`
is stable (ECMAScript 2019), and a stable sort is extensionally unique, so it
is modelled with `List.insertionSort`, which is stable.
-/

namespace PhantomBand

/-! ## String primitives

The JavaScript string operations the parser uses (`trim`, `toLowerCase`,
`split`, `replace`, `includes`, the `$`-anchored suffix test) are modelled by
structurally recursive functions over the character list of the string, so
that every definition evaluates by kernel reduction on concrete inputs. -/

/-- `s.trim()`. -/
def trimChars (cs : List Char) : List Char :=
  ((cs.dropWhile Char.isWhitespace).reverse.dropWhile Char.isWhitespace).reverse

/-- `s.trim()` on strings. -/
def jsTrim (s : String) : String := ⟨trimChars s.data⟩

/-- `s.toLowerCase()` (ASCII, which is all the keyword tables need). -/
def jsToLower (s : String) : String := ⟨s.data.map Char.toLower⟩

/-- `s.split(sep)` for a nonempty separator, on character lists; the fuel is
the obvious bound on the number of steps. -/
def splitOnCharsFuel (sep : List Char) : Nat → List Char → List Char → List (List Char)
  | 0, cs, acc => [acc.reverse ++ cs]
  | _ + 1, [], acc => [acc.reverse]
  | fuel + 1, c :: rest, acc =>
    if sep.isPrefixOf (c :: rest) then
      acc.reverse :: splitOnCharsFuel sep fuel ((c :: rest).drop sep.length) []
    else splitOnCharsFuel sep fuel rest (c :: acc)

/-- `s.split(sep)` (JavaScript string-separator split; `sep` nonempty at all
use sites). -/
def jsSplitOn (s sep : String) : List String :=
  (splitOnCharsFuel sep.data (s.data.length + 1) s.data []).map fun cs => ⟨cs⟩

/-- Split on every character satisfying `p` (one separator at a time, empty
pieces kept, as `String.split` / successive regex matches of a single
character class). -/
def splitPredChars (p : Char → Bool) : List Char → List Char → List (List Char)
  | [], acc => [acc.reverse]
  | c :: rest, acc =>
    if p c then acc.reverse :: splitPredChars p rest []
    else splitPredChars p rest (c :: acc)

/-- `pat` occurs somewhere in the list (`s.includes(pat)`). -/
def containsSubAux (pat : List Char) : List Char → Bool
  | [] => pat.isPrefixOf []
  | c :: rest => pat.isPrefixOf (c :: rest) || containsSubAux pat rest

/-- `header.includes(kw)`. -/
def containsSub (header kw : String) : Bool := containsSubAux kw.data header.data

/-- `s.endsWith(suf)`. -/
def jsEndsWith (s suf : String) : Bool := suf.data.isSuffixOf s.data

/-- Drop the last `n` characters. -/
def jsDropRight (s : String) (n : Nat) : String := ⟨s.data.take (s.data.length - n)⟩

/-- Digit list to natural number value (most significant first). -/
def digitsVal (ds : List Char) : Nat :=
  ds.foldl (fun n c => 10 * n + (c.toNat - '0'.toNat)) 0

/-- Value of a fraction part: digits `ds` after a decimal point. -/
def fracVal (ds : List Char) : ℚ :=
  (digitsVal ds : ℚ) / (10 : ℚ) ^ ds.length

/-- Core decimal-literal scanner shared by the models of JavaScript
`parseFloat` (longest-prefix semantics) and `Number` (whole-string semantics).
Grammar: optional sign, digits, optional `.` and digits (at least one digit in
the mantissa overall), optional exponent `e`/`E`, sign, digits.  Returns the
value together with the unconsumed rest, or `none` when no valid mantissa
starts the input.  (Hexadecimal and `Infinity` literals are not modelled; no
claim exercises them.) -/
def parseDecCore (cs : List Char) : Option (ℚ × List Char) :=
  let (sign, cs1) : ℚ × List Char :=
    match cs with
    | '+' :: r => (1, r)
    | '-' :: r => (-1, r)
    | _ => (1, cs)
  let d1 := cs1.takeWhile Char.isDigit
  let cs2 := cs1.dropWhile Char.isDigit
  let (d2, cs3) : List Char × List Char :=
    match cs2 with
    | '.' :: r => (r.takeWhile Char.isDigit, r.dropWhile Char.isDigit)
    | _ => ([], cs2)
  if d1.isEmpty && d2.isEmpty then none
  else
    let mant : ℚ := sign * ((digitsVal d1 : ℚ) + fracVal d2)
    let expCont : List Char → Option (ℚ × List Char) := fun r =>
      let (esign, r1) : ℤ × List Char :=
        match r with
        | '+' :: r1 => (1, r1)
        | '-' :: r1 => (-1, r1)
        | _ => (1, r)
      let ed := r1.takeWhile Char.isDigit
      if ed.isEmpty then some (mant, cs3)
      else some (mant * (10 : ℚ) ^ (esign * (digitsVal ed : ℤ)), r1.dropWhile Char.isDigit)
    match cs3 with
    | 'e' :: r => expCont r
    | 'E' :: r => expCont r
    | _ => some (mant, cs3)

/-- Model of JavaScript `parseFloat`: skip leading whitespace, parse the
longest decimal-literal prefix; `none` models `NaN`.  The result is the exact
rational value of the literal; JavaScript rounds it to an IEEE-754 double and
yields `Infinity` when the magnitude reaches `jsOverflowBound`, so statements
about finiteness of a parsed value are made by comparing the exact value with
that bound (the model itself has no infinite value). -/
def jsParseFloat (s : String) : Option ℚ :=
  (parseDecCore (s.toList.dropWhile Char.isWhitespace)).map Prod.fst

/-- The magnitude at which round-to-nearest IEEE-754 double conversion
overflows to `Infinity`: the midpoint `2 ^ 1024 - 2 ^ 970` between the
largest finite double and `2 ^ 1024`.  A decimal literal whose exact value
reaches this bound (such as `1e309`) parses to `Infinity` in JavaScript.
(The power is computed over `ℕ`, where it is a single machine-integer
operation, and cast into `ℚ`.) -/
def jsOverflowBound : ℚ := ((2 ^ 1024 - 2 ^ 970 : ℕ) : ℚ)

/-- Model of JavaScript `Number(s)` restricted to the finite-success cases the
parser relies on: the whole (trimmed) string must be one decimal literal;
empty/whitespace-only input is `none` here (JS gives `0`, but every use site
guards emptiness separately through `parseFloat`, which is `NaN` there). -/
def numFull (s : String) : Option ℚ :=
  match parseDecCore (jsTrim s).toList with
  | some (v, []) => some v
  | _ => none

/-- `str.replace(/,/g, '')`. -/
def stripCommas (s : String) : String := ⟨s.data.filter (fun c => c ≠ ',')⟩

/-- Source `isNumeric`: non-blank, and after stripping thousands-separator
commas the whole string is a finite number (`!isNaN(parseFloat(t)) &&
isFinite(Number(t))`, which for decimal text is exactly a whole-string
parse of the nonempty stripped string). -/
def isNumeric (str : String) : Bool :=
  jsTrim str ≠ "" && (numFull (stripCommas str)).isSome

/-- Unit suffixes stripped by `cleanAndParseFloat`
(`/(mhz|khz|ghz|hz|dbm|db|mw|pwr)$/i` on an already lower-cased string;
within this list, every suffix that is a proper suffix of another comes
after it, so first-match-in-list-order coincides with the regex's
leftmost-match rule). -/
def unitSuffixes : List String := ["mhz", "khz", "ghz", "hz", "dbm", "db", "mw", "pwr"]

/-- Remove the first matching unit suffix from the end of `s`, if any. -/
def stripUnitSuffix (s : String) : String :=
  match unitSuffixes.find? (fun suf => jsEndsWith s suf) with
  | some suf => jsDropRight s suf.data.length
  | none => s

/-- Source `cleanAndParseFloat`: empty/missing cell is `NaN`; otherwise trim,
strip thousands separators, lowercase, strip one trailing unit suffix, trim
again; empty result is `NaN`, otherwise `parseFloat`. -/
def cleanAndParseFloat (value : String) : Option ℚ :=
  if value = "" then none
  else
    let cleanedValue := jsTrim (stripUnitSuffix (jsToLower (stripCommas (jsTrim value))))
    if cleanedValue = "" then none
    else jsParseFloat cleanedValue

/-! ## Line and row structure -/

/-- Split on the line-separator regex `/\r\n?|\n/`. -/
def splitLinesAux : List Char → List Char → List String
  | [], acc => [String.mk acc.reverse]
  | '\r' :: '\n' :: rest, acc => String.mk acc.reverse :: splitLinesAux rest []
  | '\r' :: rest, acc => String.mk acc.reverse :: splitLinesAux rest []
  | '\n' :: rest, acc => String.mk acc.reverse :: splitLinesAux rest []
  | c :: rest, acc => splitLinesAux rest (c :: acc)

/-- `text.split(/\r\n?|\n/)`. -/
def splitLinesJS (s : String) : List String := splitLinesAux s.toList []

/-- `text.trim().split(/\r\n?|\n/).filter(line => line.trim() !== '')`. -/
def linesOf (text : String) : List String :=
  (splitLinesJS (jsTrim text)).filter (fun l => jsTrim l ≠ "")

/-- Per-delimiter statistics computed by `detectDelimiter`.  The source keeps
the standard deviation; since it is only ever compared (to `0.5` and between
candidates) and squaring is monotone on nonnegatives, the embedding keeps the
population variance and compares it to `0.25`. -/
structure DelimStat where
  d : Char
  variance : ℚ
  valid : Bool
deriving Repr, DecidableEq

/-- One candidate's entry: split each sampled line, keep the column counts
that exceed 1, declare the candidate invalid when fewer than
`Math.min(sampleLines.length, 5) * 0.5` lines had more than one column
(`2 * |counts| < min |lines| 5` in integers), otherwise record the population
variance of the kept counts. -/
def delimStatFor (sampleLines : List String) (d : Char) : DelimStat :=
  let counts := (sampleLines.map (fun l => (jsSplitOn l d.toString).length)).filter (fun c => 1 < c)
  if 2 * counts.length < min sampleLines.length 5 then ⟨d, 0, false⟩
  else
    let n : ℚ := counts.length
    let avg : ℚ := ((counts.map (fun c => (c : ℚ))).sum) / n
    ⟨d, ((counts.map (fun c => ((c : ℚ) - avg) ^ 2)).sum) / n, true⟩

/-- Source `detectDelimiter`: candidates `, ; \t`, keep the valid ones with
standard deviation below `0.5` (variance below `1/4`), sort ascending by
standard deviation (stable, so ties keep the `, ; \t` priority order) and take
the first; `none` models the whitespace fallback `' '`. -/
def detectDelimiter (sampleLines : List String) : Option Char :=
  let stats := [',', ';', '\t'].map (delimStatFor sampleLines)
  match List.insertionSort (fun a b : DelimStat => a.variance ≤ b.variance)
      (stats.filter (fun s => s.valid && decide (s.variance < 1 / 4))) with
  | c :: _ => some c.d
  | [] => none

/-- `row.trim().split(/\s+/)`: whitespace-run splitting; the empty (trimmed)
string yields `[""]`, as in JavaScript. -/
def splitWsRuns (s : String) : List String :=
  if jsTrim s = "" then [""]
  else ((splitPredChars Char.isWhitespace (jsTrim s).data []).map
    (fun cs => (⟨cs⟩ : String))).filter (fun x => x ≠ "")

/-- Source `parseCsvRow`, parameterized by the detected delimiter (`none` is
the whitespace mode): whitespace-run split, or split on the delimiter and trim
each cell. -/
def parseCsvRow (delim : Option Char) (row : String) : List String :=
  match delim with
  | none => splitWsRuns row
  | some c => ((jsSplitOn row c.toString).map jsTrim)

/-! ## Data-start location -/

/-- A line qualifies as a data-start candidate when it tokenizes into at least
two cells and its first cell is numeric. -/
def dataStartQualifies (delim : Option Char) (lines : List String) (i : Nat) : Bool :=
  let cols := parseCsvRow delim (lines.getD i "")
  2 ≤ cols.length && isNumeric (cols.headD "")

/-- The header step-back of the data-start loop: once line `i` qualifies, if
the line before it has the same column count and some non-numeric cell, that
previous line is the header and the data start moves back to it. -/
def dataStartAdjust (delim : Option Char) (lines : List String) (i : Nat) : Nat :=
  if 0 < i then
    if (parseCsvRow delim (lines.getD (i - 1) "")).length =
        (parseCsvRow delim (lines.getD i "")).length &&
        (parseCsvRow delim (lines.getD (i - 1) "")).any (fun v => !isNumeric v) then i - 1
    else i
  else i

/-- The data-start loop of the source: scan the first `min 10 |lines|` lines
for the first qualifying one, adjusted for a preceding header line; when no
line qualifies, stay at 0. -/
def findDataStart (delim : Option Char) (lines : List String) : Nat :=
  match (List.range (min 10 lines.length)).find? (dataStartQualifies delim lines) with
  | none => 0
  | some i => dataStartAdjust delim lines i

/-! ## Column role resolution -/

def freqKeywords : List String :=
  ["freq", "frequency", "mhz", "khz", "ghz", "hertz", "hz", "channel", "band", "freq.", "f(mhz)"]

def powerKeywords : List String :=
  ["power", "dbm", "db", "level", "amplitude", "rssi", "signal", "strength", "intensity", "sig_str", "pwr"]

/-- Source `scoreHeader`: an exact whole-string keyword match earns the fixed
bonus 10, otherwise count the keywords occurring as substrings. -/
def scoreHeader (header : String) (keywords : List String) : Nat :=
  if keywords.contains header then 10
  else keywords.countP (fun kw => containsSub header kw)

structure Candidate where
  index : Nat
  freqScore : Nat
  powerScore : Nat
deriving Repr, DecidableEq, Inhabited

/-- Lower-cased, trimmed headers scored against both keyword lists. -/
def headerCandidates (headerValues : List String) : List Candidate :=
  (headerValues.map (fun h => jsTrim (jsToLower h))).enum.map
    (fun p => ⟨p.1, scoreHeader p.2 freqKeywords, scoreHeader p.2 powerKeywords⟩)

/-- Ranked frequency candidates: positive score, descending (stable). -/
def freqCandidatesOf (headerValues : List String) : List Candidate :=
  List.insertionSort (fun a b : Candidate => b.freqScore ≤ a.freqScore)
    ((headerCandidates headerValues).filter (fun c => 0 < c.freqScore))

/-- Ranked power candidates: positive score, descending (stable). -/
def powerCandidatesOf (headerValues : List String) : List Candidate :=
  List.insertionSort (fun a b : Candidate => b.powerScore ≤ a.powerScore)
    ((headerCandidates headerValues).filter (fun c => 0 < c.powerScore))

structure ColStat where
  index : Nat
  numericCount : Nat
  negativeCount : Nat
deriving Repr, DecidableEq, Inhabited

/-- `cleanAndParseFloat(row[i])`; an out-of-range access is `undefined`, which
cleans to `NaN` exactly like the empty string. -/
def cleanCell (row : List String) (i : Nat) : Option ℚ := cleanAndParseFloat (row.getD i "")

/-- Per-column numeric/negative counts over the sampled rows. -/
def columnStatsOf (sampleRows : List (List String)) (numColumns : Nat) : List ColStat :=
  (List.range numColumns).map (fun i =>
    ⟨i,
      sampleRows.countP (fun row => (cleanCell row i).isSome),
      sampleRows.countP (fun row =>
        match cleanCell row i with
        | some v => decide (v < 0)
        | none => false)⟩)

/-- Tokenized sample of up to 20 data rows used by the statistical fallback. -/
def sampleRowsOf (delim : Option Char) (dataLines : List String) : List (List String) :=
  (dataLines.take (min 20 dataLines.length)).map (parseCsvRow delim)

/-- The fallback's surviving columns ranked by `numericCount` (descending,
stable): keep the columns whose numeric count exceeds half the sample size. -/
def survivorsRanked (delim : Option Char) (dataLines : List String) : List ColStat :=
  let sampleSize := min 20 dataLines.length
  let sampleRows := sampleRowsOf delim dataLines
  List.insertionSort (fun a b : ColStat => b.numericCount ≤ a.numericCount)
    ((columnStatsOf sampleRows (sampleRows.headD []).length).filter
      (fun c => sampleSize < 2 * c.numericCount))

/-- The survivors re-ranked by `negativeCount` (descending, stable over the
`numericCount` ranking — the source re-sorts the same array in place). -/
def survivorsByNeg (delim : Option Char) (dataLines : List String) : List ColStat :=
  List.insertionSort (fun a b : ColStat => b.negativeCount ≤ a.negativeCount)
    (survivorsRanked delim dataLines)

/-- Path B of the source (the statistical fallback): runs on a sample of up to
20 rows when it is nonempty and its first row has at least two cells; with at
least two surviving numeric columns, power is the head of the
`negativeCount` re-ranking and frequency the first entry of that re-ranking
with a different index (`?? -1`); otherwise the incoming indices are kept. -/
def statisticalResolve (fi₀ pi₀ : ℤ) (delim : Option Char) (dataLines : List String) : ℤ × ℤ :=
  let sampleSize := min 20 dataLines.length
  if 0 < sampleSize ∧ 2 ≤ (parseCsvRow delim (dataLines.headD "")).length then
    if 2 ≤ (survivorsRanked delim dataLines).length then
      let sorted2 := survivorsByNeg delim dataLines
      let powerIdx := (sorted2.headD default).index
      ((match sorted2.find? (fun c => c.index ≠ powerIdx) with
        | some c => (c.index : ℤ)
        | none => -1), (powerIdx : ℤ))
    else (fi₀, pi₀)
  else (fi₀, pi₀)

/-- The automatic resolution block of the source, with the incoming indices
(`-1` sentinels in fully automatic mode; a partially supplied manual index
survives exactly where the source leaves the variable untouched).  Path A
(header keywords) runs when both ranked lists are nonempty, with the conflict
rule when both heads name the same column; otherwise Path B runs, but only
when no header was detected. -/
def autoResolve (fi₀ pi₀ : ℤ) (headerValues : List String) (hasHeader : Bool)
    (delim : Option Char) (dataLines : List String) : ℤ × ℤ :=
  match freqCandidatesOf headerValues, powerCandidatesOf headerValues with
  | bestFreq :: _, bestPower :: _ =>
    if bestFreq.index ≠ bestPower.index then ((bestFreq.index : ℤ), (bestPower.index : ℤ))
    else
      let conflictIndex := bestFreq.index
      if bestPower.powerScore < bestFreq.freqScore then
        ((conflictIndex : ℤ),
         match (powerCandidatesOf headerValues).find? (fun c => c.index ≠ conflictIndex) with
         | some c => (c.index : ℤ)
         | none => pi₀)
      else
        ((match (freqCandidatesOf headerValues).find? (fun c => c.index ≠ conflictIndex) with
          | some c => (c.index : ℤ)
          | none => fi₀), (conflictIndex : ℤ))
  | _, _ =>
    if !hasHeader then statisticalResolve fi₀ pi₀ delim dataLines
    else (fi₀, pi₀)

/-- The optional manual overrides accepted by the parser. -/
structure ParseOptions where
  manualFreqIndex : Option ℤ := none
  manualPowerIndex : Option ℤ := none
deriving Repr, DecidableEq

/-- Index resolution: automatic resolution runs unless both manual indices are
supplied, in which case they are used directly. -/
def resolveIndices (options : ParseOptions) (headerValues : List String) (hasHeader : Bool)
    (delim : Option Char) (dataLines : List String) : ℤ × ℤ :=
  let fi₀ := options.manualFreqIndex.getD (-1)
  let pi₀ := options.manualPowerIndex.getD (-1)
  if options.manualFreqIndex = none ∨ options.manualPowerIndex = none then
    autoResolve fi₀ pi₀ headerValues hasHeader delim dataLines
  else (fi₀, pi₀)

/-! ## Row materialization and report assembly -/

structure SpectrumDataPoint where
  frequency : ℚ
  power : ℚ
deriving Repr, DecidableEq

instance : Inhabited SpectrumDataPoint := ⟨⟨0, 0⟩⟩

/-- `values[i]` for a JavaScript (possibly negative) index: out-of-range reads
give `undefined`, which `cleanAndParseFloat` treats like the empty string. -/
def cellAtZ (values : List String) (i : ℤ) : String :=
  if 0 ≤ i then values.getD i.toNat "" else ""

/-- One iteration of the materialization loop: tokenize the line, check the
row is long enough (`values.length > Math.max(freqIndex, powerIndex)`), clean
both target cells, keep the point only when both are numbers. -/
def materializeRow (delim : Option Char) (fi pi : ℤ) (line : String) : Option SpectrumDataPoint :=
  let values := parseCsvRow delim line
  if max fi pi < (values.length : ℤ) then
    match cleanAndParseFloat (cellAtZ values fi), cleanAndParseFloat (cellAtZ values pi) with
    | some f, some p => some ⟨f, p⟩
    | _, _ => none
  else none

/-- The materialization loop: accumulate the retained points in order and the
running power sum. -/
def materialize (delim : Option Char) (fi pi : ℤ) (dataLines : List String) :
    List SpectrumDataPoint × ℚ :=
  dataLines.foldl
    (fun acc line =>
      match materializeRow delim fi pi line with
      | some pt => (acc.1 ++ [pt], acc.2 + pt.power)
      | none => acc)
    ([], 0)

inductive ParseError where
  /-- Failures that carry a message only. -/
  | generic (message : String)
  /-- The recoverable detection failure: message, resolved headers, and up to
  5 tokenized sample rows. -/
  | columnDetection (message : String) (headers : List String) (sampleData : List (List String))
deriving Repr, DecidableEq

structure FileAnalysisReport where
  rowCount : Nat
  columnCount : Nat
  headers : List String
  statsFreqMin : ℚ
  statsFreqMax : ℚ
  statsPowerMin : ℚ
  statsPowerMax : ℚ
  statsPowerAvg : ℚ
  firstRows : List SpectrumDataPoint
  lastRows : List SpectrumDataPoint
  peakPowerRows : List SpectrumDataPoint
deriving Repr, DecidableEq

instance {ε α : Type} [DecidableEq ε] [DecidableEq α] : DecidableEq (Except ε α) := fun
  | .ok a, .ok b => decidable_of_iff (a = b) (by simp)
  | .error a, .error b => decidable_of_iff (a = b) (by simp)
  | .ok _, .error _ => isFalse (by simp)
  | .error _, .ok _ => isFalse (by simp)

/-! ### The pipeline, stage by stage

Each intermediate value of the source function is a definition of the input
text (and options), so the theorems below can speak about them directly; the
top-level function just strings the guards of the source between them.
(`fileName` is copied from the file handle and is not part of the text
processing, so it is left out of the embedded report.) -/

def delimOf (text : String) : Option Char := detectDelimiter ((linesOf text).take 50)

def dataStartOf (text : String) : Nat := findDataStart (delimOf text) (linesOf text)

def relevantOf (text : String) : List String := (linesOf text).drop (dataStartOf text)

def firstLineValuesOf (text : String) : List String :=
  parseCsvRow (delimOf text) ((relevantOf text).headD "")

def hasHeaderOf (text : String) : Bool :=
  (firstLineValuesOf text).any (fun v => v ≠ "" && !isNumeric v)

def headerValuesOf (text : String) : List String :=
  if hasHeaderOf text then firstLineValuesOf text
  else (List.range (firstLineValuesOf text).length).map (fun i => "Column " ++ toString (i + 1))

def dataLinesOf (text : String) : List String :=
  if hasHeaderOf text then (relevantOf text).drop 1 else relevantOf text

def indicesOf (text : String) (options : ParseOptions) : ℤ × ℤ :=
  resolveIndices options (headerValuesOf text) (hasHeaderOf text) (delimOf text) (dataLinesOf text)

def sampleDataOf (text : String) : List (List String) :=
  ((dataLinesOf text).take 5).map (parseCsvRow (delimOf text))

def allDataOf (text : String) (options : ParseOptions) : List SpectrumDataPoint :=
  (materialize (delimOf text) (indicesOf text options).1 (indicesOf text options).2
    (dataLinesOf text)).1

def powerSumOf (text : String) (options : ParseOptions) : ℚ :=
  (materialize (delimOf text) (indicesOf text options).1 (indicesOf text options).2
    (dataLinesOf text)).2

def sortedByPowerOf (text : String) (options : ParseOptions) : List SpectrumDataPoint :=
  List.insertionSort (fun a b : SpectrumDataPoint => b.power ≤ a.power) (allDataOf text options)

def sortedByFreqOf (text : String) (options : ParseOptions) : List SpectrumDataPoint :=
  List.insertionSort (fun a b : SpectrumDataPoint => a.frequency ≤ b.frequency)
    (allDataOf text options)

/-- Assembly of the success-branch report from the pipeline's intermediate
values: statistics are read off the two sorts (frequency ascending, power
descending), the average comes from the running sum, and the three sample
windows are the first 10, last 10, and top-10-by-power points. -/
def reportAssemble (headerValues dataLines : List String)
    (allData sortedByFreq sortedByPower : List SpectrumDataPoint)
    (powerSum : ℚ) : FileAnalysisReport :=
  { rowCount := dataLines.length
    columnCount := headerValues.length
    headers := headerValues
    statsFreqMin := (sortedByFreq.headD default).frequency
    statsFreqMax := (sortedByFreq.getLastD default).frequency
    statsPowerMin := (sortedByPower.getLastD default).power
    statsPowerMax := (sortedByPower.headD default).power
    statsPowerAvg := powerSum / (allData.length : ℚ)
    firstRows := allData.take 10
    lastRows := allData.drop (allData.length - 10)
    peakPowerRows := sortedByPower.take 10 }

/-- The report built in the success branch of the source. -/
def reportOf (text : String) (options : ParseOptions) : FileAnalysisReport :=
  reportAssemble (headerValuesOf text) (dataLinesOf text) (allDataOf text options)
    (sortedByFreqOf text options) (sortedByPowerOf text options) (powerSumOf text options)

/-- Source `parseAndAnalyzeCsv` (the synchronous text-processing body; the
surrounding `FileReader` plumbing only delivers `text`): the guard chain of
the source, ending in the assembled report. -/
def parseAndAnalyzeCsv (text : String) (options : ParseOptions) :
    Except ParseError FileAnalysisReport :=
  if text = "" then
    .error (.generic "File is empty or could not be read.")
  else if (linesOf text).length < 1 then
    .error (.generic "File must contain at least one data row.")
  else if (relevantOf text).length < 1 then
    .error (.generic "No valid data rows found.")
  else if (indicesOf text options).1 = -1 ∨ (indicesOf text options).2 = -1 ∨
      (indicesOf text options).1 = (indicesOf text options).2 then
    .error (.columnDetection "Could not automatically detect the required columns."
      (headerValuesOf text) (sampleDataOf text))
  else if (dataLinesOf text).length = 0 then
    .error (.generic "File contains a header but no data rows.")
  else if (allDataOf text options).length = 0 then
    .error (.generic "No valid numerical data found. Please ensure columns are correctly formatted and delimited (e.g., comma, space, tab).")
  else
    .ok (reportOf text options)

/-! ## Order instances for the sort relations -/

instance : IsRefl SpectrumDataPoint (fun a b => a.frequency ≤ b.frequency) := ⟨fun _ => le_refl _⟩

instance : IsTrans SpectrumDataPoint (fun a b => a.frequency ≤ b.frequency) :=
  ⟨fun _ _ _ h1 h2 => le_trans h1 h2⟩

instance : IsTotal SpectrumDataPoint (fun a b => a.frequency ≤ b.frequency) :=
  ⟨fun a b => le_total a.frequency b.frequency⟩

instance : IsRefl SpectrumDataPoint (fun a b => b.power ≤ a.power) := ⟨fun _ => le_refl _⟩

instance : IsTrans SpectrumDataPoint (fun a b => b.power ≤ a.power) :=
  ⟨fun _ _ _ h1 h2 => le_trans h2 h1⟩

instance : IsTotal SpectrumDataPoint (fun a b => b.power ≤ a.power) :=
  ⟨fun a b => le_total b.power a.power⟩

instance : IsRefl ColStat (fun a b => b.negativeCount ≤ a.negativeCount) := ⟨fun _ => le_refl _⟩

instance : IsTrans ColStat (fun a b => b.negativeCount ≤ a.negativeCount) :=
  ⟨fun _ _ _ h1 h2 => le_trans h2 h1⟩

instance : IsTotal ColStat (fun a b => b.negativeCount ≤ a.negativeCount) :=
  ⟨fun a b => le_total b.negativeCount a.negativeCount⟩

instance : IsRefl DelimStat (fun a b => a.variance ≤ b.variance) := ⟨fun _ => le_refl _⟩

instance : IsTrans DelimStat (fun a b => a.variance ≤ b.variance) :=
  ⟨fun _ _ _ h1 h2 => le_trans h1 h2⟩

instance : IsTotal DelimStat (fun a b => a.variance ≤ b.variance) :=
  ⟨fun a b => le_total a.variance b.variance⟩

/-! ## Views used by the theorems -/

/-- The fixed candidate set of the delimiter detector, in priority order. -/
def delimCandidates : List Char := [',', ';', '\t']

/-- A delimiter candidate survives the detector's filter: it is `valid`
(enough multi-column lines) and its variance is below `1/4` (standard
deviation below `0.5`). -/
def survives (sampleLines : List String) (d : Char) : Bool :=
  (delimStatFor sampleLines d).valid && decide ((delimStatFor sampleLines d).variance < 1 / 4)

/-- The column-count variance the detector computed for a candidate. -/
def varOf (sampleLines : List String) (d : Char) : ℚ :=
  (delimStatFor sampleLines d).variance

/-- Priority position of a delimiter candidate (comma before semicolon before
tab). -/
def prio (d : Char) : Nat := if d = ',' then 0 else if d = ';' then 1 else 2

/-- The discard rule exactly as the claim about delimiter detection states
it: a candidate is discarded when fewer than half of the sampled lines split
into more than one column under it.  (The source instead compares against
half of `min (number of sampled lines) 5`; the counterexample below
separates the two.) -/
def claimedDiscard (sampleLines : List String) (d : Char) : Prop :=
  2 * ((sampleLines.map (fun l => (jsSplitOn l (d.toString)).length)).filter
        (fun c => 1 < c)).length < sampleLines.length

/-- One data row of the malformed-row tolerance input: frequency `100 + i`,
power `-50`, except that rows `10, 30, 50, 70, 90` carry non-numeric garbage
in the power column. -/
def rowC7 (i : Nat) : String :=
  toString (100 + i) ++ "," ++ (if i % 20 = 10 then "n/a" else "-50")

/-- A 100-row capture whose power column is garbage in exactly 5 rows. -/
def textC7 : String :=
  "freq,power\n" ++ String.intercalate "\n" ((List.range 100).map rowC7)

/-! ## Helper lemmas -/

theorem materialize_spec (delim : Option Char) (fi pi : ℤ) (dataLines : List String) :
    materialize delim fi pi dataLines =
      (dataLines.filterMap (materializeRow delim fi pi),
       ((dataLines.filterMap (materializeRow delim fi pi)).map SpectrumDataPoint.power).sum) := by
  have aux : ∀ (ls : List String) (acc : List SpectrumDataPoint × ℚ),
      (ls.foldl (fun acc line =>
        match materializeRow delim fi pi line with
        | some pt => (acc.1 ++ [pt], acc.2 + pt.power)
        | none => acc) acc) =
      (acc.1 ++ ls.filterMap (materializeRow delim fi pi),
       acc.2 + ((ls.filterMap (materializeRow delim fi pi)).map SpectrumDataPoint.power).sum) := by
    intro ls
    induction ls with
    | nil => intro acc; simp
    | cons l ls ih =>
      intro acc
      simp only [List.foldl_cons, List.filterMap_cons]
      cases h : materializeRow delim fi pi l with
      | none => simp [ih]
      | some pt => simp [ih, add_assoc]
  simpa [materialize] using aux dataLines ([], 0)

theorem allDataOf_eq (text : String) (options : ParseOptions) :
    allDataOf text options =
      (dataLinesOf text).filterMap
        (materializeRow (delimOf text) (indicesOf text options).1 (indicesOf text options).2) := by
  rw [allDataOf, materialize_spec]

theorem powerSumOf_eq (text : String) (options : ParseOptions) :
    powerSumOf text options = ((allDataOf text options).map SpectrumDataPoint.power).sum := by
  rw [powerSumOf, allDataOf_eq, materialize_spec]

theorem reportOf_rowCount (text : String) (options : ParseOptions) :
    (reportOf text options).rowCount = (dataLinesOf text).length := by
  rw [reportOf]; rfl

theorem reportOf_statsFreqMin (text : String) (options : ParseOptions) :
    (reportOf text options).statsFreqMin =
      ((sortedByFreqOf text options).headD default).frequency := by
  rw [reportOf]; rfl

theorem reportOf_statsFreqMax (text : String) (options : ParseOptions) :
    (reportOf text options).statsFreqMax =
      ((sortedByFreqOf text options).getLastD default).frequency := by
  rw [reportOf]; rfl

theorem reportOf_statsPowerMin (text : String) (options : ParseOptions) :
    (reportOf text options).statsPowerMin =
      ((sortedByPowerOf text options).getLastD default).power := by
  rw [reportOf]; rfl

theorem reportOf_statsPowerMax (text : String) (options : ParseOptions) :
    (reportOf text options).statsPowerMax =
      ((sortedByPowerOf text options).headD default).power := by
  rw [reportOf]; rfl

theorem reportOf_statsPowerAvg (text : String) (options : ParseOptions) :
    (reportOf text options).statsPowerAvg =
      powerSumOf text options / ((allDataOf text options).length : ℚ) := by
  rw [reportOf]; rfl

theorem reportOf_peakPowerRows (text : String) (options : ParseOptions) :
    (reportOf text options).peakPowerRows = (sortedByPowerOf text options).take 10 := by
  rw [reportOf]; rfl

/-- Inversion of a successful parse: the report is the assembled one and the
retained point list is nonempty. -/
theorem parse_ok_inv {text : String} {options : ParseOptions} {r : FileAnalysisReport}
    (h : parseAndAnalyzeCsv text options = .ok r) :
    r = reportOf text options ∧ (allDataOf text options).length ≠ 0 := by
  unfold parseAndAnalyzeCsv at h
  split_ifs at h with h1 h2 h3 h4 h5 h6
  all_goals simp_all

/-- `find?` over `range n` returns the least index below `n` satisfying the
predicate. -/
theorem find?_range_eq_some {p : Nat → Bool} {j : Nat}
    (hpj : p j = true) (hmin : ∀ i, i < j → p i = false) :
    ∀ (n : Nat), j < n → (List.range n).find? p = some j := by
  intro n
  induction n with
  | zero => omega
  | succ m ih =>
    intro hj
    rw [List.range_succ, List.find?_append]
    rcases Nat.lt_or_ge j m with h | h
    · rw [ih h]; rfl
    · have hjn : j = m := by omega
      subst hjn
      have hnone : (List.range j).find? p = none := by
        rw [List.find?_eq_none]
        intro x hx
        simp only [List.mem_range] at hx
        simp [hmin x hx]
      rw [hnone]
      simp [hpj]

section SortedLemmas

variable {α : Type} {r : α → α → Prop}

/-- In a sorted list, the head is related to every element. -/
theorem sorted_headD_rel [IsRefl α r] (d : α) {l : List α} (hs : List.Sorted r l)
    (hne : l ≠ []) : ∀ y ∈ l, r (l.headD d) y := by
  cases l with
  | nil => simp at hne
  | cons x xs =>
    intro y hy
    rcases List.mem_cons.1 hy with rfl | hy
    · exact refl_of r y
    · exact List.rel_of_sorted_cons hs y hy

/-- A nonempty list contains its `getLastD`. -/
theorem getLastD_mem_of_ne_nil : ∀ (l : List α) (d : α), l ≠ [] → l.getLastD d ∈ l
  | [], _, h => absurd rfl h
  | x :: xs, d, _ => by
    rw [List.getLastD_cons]
    cases xs with
    | nil => simp [List.getLastD]
    | cons y ys =>
      exact List.mem_cons_of_mem x (getLastD_mem_of_ne_nil (y :: ys) x (by simp))

/-- In a sorted list, every element is related to the last one. -/
theorem sorted_rel_getLastD [IsRefl α r] (d : α) :
    ∀ (l : List α), List.Sorted r l → ∀ y ∈ l, r y (l.getLastD d)
  | [], _, y, hy => absurd hy (List.not_mem_nil y)
  | [x], _, y, hy => by
    rcases List.mem_singleton.1 hy with rfl
    simpa using refl_of r y
  | x :: x2 :: xs, h, y, hy => by
    have h2 : List.Sorted r (x2 :: xs) := h.of_cons
    have hl : (x :: x2 :: xs).getLastD d = (x2 :: xs).getLastD d := by
      simp [List.getLastD_cons]
    rcases List.mem_cons.1 hy with rfl | hy2
    · rw [hl]
      exact List.rel_of_sorted_cons h _ (getLastD_mem_of_ne_nil (x2 :: xs) d (by simp))
    · exact hl ▸ sorted_rel_getLastD d (x2 :: xs) h2 y hy2

end SortedLemmas

/-! ## The claims -/

/-- C3: for the exact input text `"freq,power\n100.0,-50.5\n100.1,-48.2\n100.2,-52.0\n"`
the parse succeeds and the report has `rowCount = 3`, `columnCount = 2`,
`headers = ["freq", "power"]`, frequency min/max `100.0`/`100.2`, power
min/max `-52.0`/`-48.2`, and power average `(-50.5 + -48.2 + -52.0) / 3`. -/
theorem c3_end_to_end_example :
    (parseAndAnalyzeCsv ("freq,power\n100.0,-50.5\n100.1,-48.2\n100.2,-52.0\n") {}).toOption.map
      (fun r => (r.rowCount, r.columnCount, r.headers, r.statsFreqMin, r.statsFreqMax,
        r.statsPowerMin, r.statsPowerMax, r.statsPowerAvg))
      = some (3, 2, ["freq", "power"], 100, 100.2, -52, -48.2, (-50.5 + -48.2 + -52.0) / 3) := by
  with_unfolding_all rfl

/-- C10: for every successful parse, `rowCount` is the number of data lines
after the detected header (not the number of retained points), so the
retained-point count is at most `rowCount`; on the concrete input
`"freq,power\n100,-50\n100,n/a"` the parse succeeds with `rowCount = 2` but
only 1 retained point. -/
theorem c10_rowcount_counts_data_lines :
    (∀ (text : String) (options : ParseOptions) (r : FileAnalysisReport),
        parseAndAnalyzeCsv text options = .ok r →
          r.rowCount = (dataLinesOf text).length ∧
          (allDataOf text options).length ≤ r.rowCount) ∧
    (parseAndAnalyzeCsv ("freq,power\n100,-50\n100,n/a") {} =
        .ok (reportOf ("freq,power\n100,-50\n100,n/a") {}) ∧
      (reportOf ("freq,power\n100,-50\n100,n/a") {}).rowCount = 2 ∧
      (allDataOf ("freq,power\n100,-50\n100,n/a") {}).length = 1) := by
  constructor
  · intro text options r h
    obtain ⟨hr, -⟩ := parse_ok_inv h
    subst hr
    refine ⟨reportOf_rowCount text options, ?_⟩
    rw [reportOf_rowCount, allDataOf_eq]
    exact List.length_filterMap_le _ _
  · exact ⟨by with_unfolding_all rfl, by with_unfolding_all rfl, by with_unfolding_all rfl⟩

/-- C10 witness: the universally quantified part applied to the concrete
input of the strict-inequality example. -/
theorem c10_witness :
    (reportOf ("freq,power\n100,-50\n100,n/a") {}).rowCount =
        (dataLinesOf ("freq,power\n100,-50\n100,n/a")).length ∧
      (allDataOf ("freq,power\n100,-50\n100,n/a") {}).length ≤
        (reportOf ("freq,power\n100,-50\n100,n/a") {}).rowCount :=
  c10_rowcount_counts_data_lines.1 ("freq,power\n100,-50\n100,n/a") {} _
    (by with_unfolding_all rfl)

/-- C8: a column-detection failure rejects with the structured
`columnDetection` error carrying exactly the resolved header list and the
first at-most-5 tokenized data rows; every other failure of the parser is a
`generic` error carrying a message only; and an input whose two columns are
both text fails with the column-detection error instead of an
empty-but-successful report. -/
theorem c8_column_detection_error_payload :
    (∀ (text : String) (options : ParseOptions) (m : String) (hs : List String)
        (sd : List (List String)),
        parseAndAnalyzeCsv text options = .error (.columnDetection m hs sd) →
          hs = headerValuesOf text ∧ sd = sampleDataOf text ∧ sd.length ≤ 5) ∧
    (∀ (text : String) (options : ParseOptions) (e : ParseError),
        parseAndAnalyzeCsv text options = .error e →
          (∃ msg, e = ParseError.generic msg) ∨
            e = ParseError.columnDetection
              ("Could not automatically detect the required columns.")
              (headerValuesOf text) (sampleDataOf text)) ∧
    parseAndAnalyzeCsv ("name,desc\nfoo,bar\nbaz,qux") {} =
      .error (.columnDetection ("Could not automatically detect the required columns.")
        ["name", "desc"] [["foo", "bar"], ["baz", "qux"]]) := by
  refine ⟨?_, ?_, by with_unfolding_all rfl⟩
  · intro text options m hs sd h
    unfold parseAndAnalyzeCsv at h
    split_ifs at h
    all_goals simp only [Except.error.injEq, ParseError.columnDetection.injEq,
      reduceCtorEq] at h
    obtain ⟨hm, hh, hsd⟩ := h
    subst hh
    subst hsd
    refine ⟨rfl, rfl, ?_⟩
    simp only [sampleDataOf, List.length_map, List.length_take]
    exact min_le_left _ _
  · intro text options e h
    unfold parseAndAnalyzeCsv at h
    split_ifs at h
    all_goals injection h with h'
    all_goals subst h'
    all_goals first
      | exact Or.inl ⟨_, rfl⟩
      | exact Or.inr rfl

/-- C8 witness: the payload characterization applied at the concrete
two-text-column input. -/
theorem c8_witness :
    (["name", "desc"] : List String) = headerValuesOf ("name,desc\nfoo,bar\nbaz,qux") ∧
      ([["foo", "bar"], ["baz", "qux"]] : List (List String)) =
        sampleDataOf ("name,desc\nfoo,bar\nbaz,qux") ∧
      ([["foo", "bar"], ["baz", "qux"]] : List (List String)).length ≤ 5 :=
  c8_column_detection_error_payload.1 ("name,desc\nfoo,bar\nbaz,qux") {} _ _ _
    (by with_unfolding_all rfl)

/-- C5: the data-start locator scans at most the first 10 lines; when no line
among them tokenizes into at least 2 cells with a numeric first cell it
returns 0; otherwise it returns the index of the first such line, stepped
back by one exactly when the immediately preceding line has the same column
count and contains a non-numeric cell. -/
theorem c5_data_start_locator :
    (∀ (delim : Option Char) (lines : List String),
        (∀ i, i < min 10 lines.length → dataStartQualifies delim lines i = false) →
          findDataStart delim lines = 0) ∧
    (∀ (delim : Option Char) (lines : List String) (j : Nat),
        j < min 10 lines.length → dataStartQualifies delim lines j = true →
        (∀ i, i < j → dataStartQualifies delim lines i = false) →
          findDataStart delim lines =
            if 0 < j ∧
                (parseCsvRow delim (lines.getD (j - 1) "")).length =
                  (parseCsvRow delim (lines.getD j "")).length ∧
                (parseCsvRow delim (lines.getD (j - 1) "")).any (fun v => !isNumeric v) = true
            then j - 1 else j) := by
  constructor
  · intro delim lines hall
    unfold findDataStart
    have hnone : (List.range (min 10 lines.length)).find? (dataStartQualifies delim lines)
        = none := by
      rw [List.find?_eq_none]
      intro i hi
      simp only [List.mem_range] at hi
      simp [hall i hi]
    rw [hnone]
  · intro delim lines j hj hpj hmin
    have hsome : findDataStart delim lines = dataStartAdjust delim lines j := by
      unfold findDataStart
      rw [find?_range_eq_some hpj hmin _ hj]
    rw [hsome]
    unfold dataStartAdjust
    by_cases h0 : 0 < j
    · by_cases hA : (parseCsvRow delim (lines.getD (j - 1) "")).length =
          (parseCsvRow delim (lines.getD j "")).length
      · by_cases hB : (parseCsvRow delim (lines.getD (j - 1) "")).any
            (fun v => !isNumeric v) = true
        · simp [h0, hA, hB]
        · simp [h0, hA, hB]
      · simp [h0, hA]
    · simp [h0]

/-- C5 witness: on `["freq,power", "1,2"]` the first qualifying line is index
1 and the step-back condition holds, so the data start is 0. -/
theorem c5_witness :
    findDataStart (some ',') ["freq,power", "1,2"] =
      if 0 < 1 ∧
          (parseCsvRow (some ',') (["freq,power", "1,2"].getD 0 "")).length =
            (parseCsvRow (some ',') (["freq,power", "1,2"].getD 1 "")).length ∧
          (parseCsvRow (some ',') (["freq,power", "1,2"].getD 0 "")).any
            (fun v => !isNumeric v) = true
      then 0 else 1 :=
  c5_data_start_locator.2 (some ',') ["freq,power", "1,2"] 1 (by decide)
    (by with_unfolding_all rfl)
    (fun i hi => by
      have h0 : i = 0 := by omega
      subst h0
      with_unfolding_all rfl)

/-- C9: when both manual indices are supplied the automatic column resolution
is bypassed and the supplied indices are used as-is, while the materializer
still skips every row shorter than `max freqIndex powerIndex + 1`. -/
theorem c9_manual_override :
    (∀ (text : String) (fi pi : ℤ),
        indicesOf text ⟨some fi, some pi⟩ = (fi, pi)) ∧
    (∀ (delim : Option Char) (fi pi : ℤ) (line : String),
        ((parseCsvRow delim line).length : ℤ) < max fi pi + 1 →
          materializeRow delim fi pi line = none) := by
  constructor
  · intro text fi pi
    simp [indicesOf, resolveIndices]
  · intro delim fi pi line h
    unfold materializeRow
    have : ¬ max fi pi < ((parseCsvRow delim line).length : ℤ) := by omega
    simp [this]

/-- C9 witness: manual indices 0 and 5 are used directly, and a 2-cell row is
skipped because it is shorter than `max 0 5 + 1`. -/
theorem c9_witness :
    indicesOf ("freq,power\n1,2") ⟨some 0, some 5⟩ = (0, 5) ∧
      materializeRow (some ',') 0 5 ("1,2") = none :=
  ⟨c9_manual_override.1 ("freq,power\n1,2") 0 5,
   c9_manual_override.2 (some ',') 0 5 ("1,2") (by decide)⟩

set_option maxRecDepth 2000000 in
/-- C7 counterexample: the claim asserts every retained point has both fields
finite, but `cleanAndParseFloat` checks only for NaN (unlike `isNumeric`,
which also checks `isFinite`): the power cell `1e309` cleans to the exact
value `10 ^ 309`, which reaches the double-overflow bound, so JavaScript
retains the point with power `Infinity` — retained rather than dropped, and
not finite — and the surrounding parse still succeeds. -/
theorem c7_counterexample :
    materializeRow (some ',') 0 1 ("100,1e309") = some ⟨100, (10 : ℚ) ^ 309⟩ ∧
      jsOverflowBound ≤ (10 : ℚ) ^ 309 ∧
      (parseAndAnalyzeCsv ("freq,power\n100,1e309") {}).isOk = true := by
  refine ⟨by with_unfolding_all rfl, ?_, by with_unfolding_all rfl⟩
  unfold jsOverflowBound
  exact of_decide_eq_true (by with_unfolding_all rfl)

set_option maxRecDepth 2000000 in
/-- C7 amended: a row whose frequency or power cell cleans to NaN is dropped
silently (the materializer yields no point for it and no error); a row long
enough whose two target cells clean to numbers is retained with exactly those
values — whether or not the literal lies within the finite double range, so
retained points are non-NaN but not necessarily finite; retained points are
exactly the rows that cleaned to numbers, and the concrete 100-row capture
with 5 garbage power cells parses successfully with exactly 95 retained
points. -/
theorem c7_nan_rows_dropped_silently :
    (∀ (delim : Option Char) (fi pi : ℤ) (line : String),
        (cleanAndParseFloat (cellAtZ (parseCsvRow delim line) fi) = none ∨
         cleanAndParseFloat (cellAtZ (parseCsvRow delim line) pi) = none) →
          materializeRow delim fi pi line = none) ∧
    (∀ (delim : Option Char) (fi pi : ℤ) (line : String) (f p : ℚ),
        max fi pi < ((parseCsvRow delim line).length : ℤ) →
        cleanAndParseFloat (cellAtZ (parseCsvRow delim line) fi) = some f →
        cleanAndParseFloat (cellAtZ (parseCsvRow delim line) pi) = some p →
          materializeRow delim fi pi line = some ⟨f, p⟩) ∧
    (∀ (delim : Option Char) (fi pi : ℤ) (dataLines : List String),
        (materialize delim fi pi dataLines).1 =
          dataLines.filterMap (materializeRow delim fi pi)) ∧
    ((parseAndAnalyzeCsv textC7 {}).isOk = true ∧ (allDataOf textC7 {}).length = 95) := by
  refine ⟨?_, ?_, ?_, ?_, ?_⟩
  · intro delim fi pi line h
    unfold materializeRow
    rcases h with h | h
    all_goals simp [h]
  · intro delim fi pi line f p hlen hf hp
    simp only [materializeRow]
    rw [if_pos hlen, hf, hp]
  · intro delim fi pi dataLines
    rw [materialize_spec]
  · with_unfolding_all rfl
  · with_unfolding_all rfl

/-- C7 witness: the drop rule applied to a row whose power cell is the
non-numeric `n/a`. -/
theorem c7_witness : materializeRow (some ',') 0 1 ("100,n/a") = none :=
  c7_nan_rows_dropped_silently.1 (some ',') 0 1 ("100,n/a")
    (Or.inr (by with_unfolding_all rfl))

set_option maxHeartbeats 2000000 in
/-- C6: for every successful parse the reported frequency and power bounds
enclose every retained point, the power average is the arithmetic mean of the
retained points' powers, and `peakPowerRows` is the power-descending sort's
prefix of length `min 10 (number of retained points)`. -/
theorem c6_stats_invariants :
    ∀ (text : String) (options : ParseOptions) (r : FileAnalysisReport),
      parseAndAnalyzeCsv text options = .ok r →
        (∀ p ∈ allDataOf text options,
            r.statsFreqMin ≤ p.frequency ∧ p.frequency ≤ r.statsFreqMax ∧
            r.statsPowerMin ≤ p.power ∧ p.power ≤ r.statsPowerMax) ∧
        r.statsPowerAvg =
          ((allDataOf text options).map SpectrumDataPoint.power).sum /
            ((allDataOf text options).length : ℚ) ∧
        List.Sorted (fun a b : SpectrumDataPoint => b.power ≤ a.power) r.peakPowerRows ∧
        r.peakPowerRows.length = min 10 (allDataOf text options).length := by
  intro text options r h
  obtain ⟨hr, hne⟩ := parse_ok_inv h
  subst hr
  have hfreq_sorted : List.Sorted (fun a b : SpectrumDataPoint => a.frequency ≤ b.frequency)
      (sortedByFreqOf text options) := List.sorted_insertionSort _ _
  have hpow_sorted : List.Sorted (fun a b : SpectrumDataPoint => b.power ≤ a.power)
      (sortedByPowerOf text options) := List.sorted_insertionSort _ _
  have hfreq_ne : sortedByFreqOf text options ≠ [] := by
    intro hemp
    have := List.length_insertionSort
      (fun a b : SpectrumDataPoint => a.frequency ≤ b.frequency) (allDataOf text options)
    rw [show List.insertionSort (fun a b : SpectrumDataPoint => a.frequency ≤ b.frequency)
      (allDataOf text options) = sortedByFreqOf text options from rfl, hemp] at this
    simp at this
    omega
  have hpow_ne : sortedByPowerOf text options ≠ [] := by
    intro hemp
    have := List.length_insertionSort
      (fun a b : SpectrumDataPoint => b.power ≤ a.power) (allDataOf text options)
    rw [show List.insertionSort (fun a b : SpectrumDataPoint => b.power ≤ a.power)
      (allDataOf text options) = sortedByPowerOf text options from rfl, hemp] at this
    simp at this
    omega
  refine ⟨?_, ?_, ?_, ?_⟩
  · intro p hp
    have hpf : p ∈ sortedByFreqOf text options := by
      rw [sortedByFreqOf, List.mem_insertionSort]
      exact hp
    have hpp : p ∈ sortedByPowerOf text options := by
      rw [sortedByPowerOf, List.mem_insertionSort]
      exact hp
    refine ⟨?_, ?_, ?_, ?_⟩
    · rw [reportOf_statsFreqMin]
      exact sorted_headD_rel default hfreq_sorted hfreq_ne p hpf
    · rw [reportOf_statsFreqMax]
      exact sorted_rel_getLastD default _ hfreq_sorted p hpf
    · rw [reportOf_statsPowerMin]
      exact sorted_rel_getLastD default _ hpow_sorted p hpp
    · rw [reportOf_statsPowerMax]
      exact sorted_headD_rel default hpow_sorted hpow_ne p hpp
  · rw [reportOf_statsPowerAvg, powerSumOf_eq]
  · rw [reportOf_peakPowerRows]
    exact List.Pairwise.sublist (List.take_sublist _ _) hpow_sorted
  · rw [reportOf_peakPowerRows, List.length_take, sortedByPowerOf, List.length_insertionSort]

/-- C6 witness: the mean/peak conclusions at a concrete successful parse. -/
theorem c6_witness :
    (reportOf ("freq,power\n10,-50\n20,-40\n30,-60") {}).statsPowerAvg =
        ((allDataOf ("freq,power\n10,-50\n20,-40\n30,-60") {}).map
            SpectrumDataPoint.power).sum /
          ((allDataOf ("freq,power\n10,-50\n20,-40\n30,-60") {}).length : ℚ) ∧
      List.Sorted (fun a b : SpectrumDataPoint => b.power ≤ a.power)
        (reportOf ("freq,power\n10,-50\n20,-40\n30,-60") {}).peakPowerRows ∧
      (reportOf ("freq,power\n10,-50\n20,-40\n30,-60") {}).peakPowerRows.length =
        min 10 (allDataOf ("freq,power\n10,-50\n20,-40\n30,-60") {}).length := by
  have h := c6_stats_invariants ("freq,power\n10,-50\n20,-40\n30,-60") {}
    (reportOf ("freq,power\n10,-50\n20,-40\n30,-60") {}) (by with_unfolding_all rfl)
  exact ⟨h.2.1, h.2.2.1, h.2.2.2⟩

/-- C1: in Path A, whenever the ranked frequency list and the ranked power
list both start at the same column index, that column goes to whichever role
scored strictly higher on it, the other role goes to the first entry of its
ranked list with a different index, and that role is left unresolved (`-1`,
failing detection) exactly when no such entry exists; the header row
`["Signal_Power_MHz", "Level"]` resolves to the distinct pair `(0, 1)`, the
second cell taking the role the first cell did not win. -/
theorem c1_header_conflict_rule :
    (∀ (headerValues : List String) (hasHeader : Bool) (delim : Option Char)
        (dataLines : List String) (f0 p0 : Candidate) (ft pt : List Candidate),
        freqCandidatesOf headerValues = f0 :: ft →
        powerCandidatesOf headerValues = p0 :: pt →
        f0.index = p0.index →
          (p0.powerScore < f0.freqScore →
            autoResolve (-1) (-1) headerValues hasHeader delim dataLines =
              ((f0.index : ℤ),
                match (p0 :: pt).find? (fun c => c.index ≠ f0.index) with
                | some c => (c.index : ℤ)
                | none => -1)) ∧
          (f0.freqScore < p0.powerScore →
            autoResolve (-1) (-1) headerValues hasHeader delim dataLines =
              ((match (f0 :: ft).find? (fun c => c.index ≠ f0.index) with
                | some c => (c.index : ℤ)
                | none => -1),
               (p0.index : ℤ)))) ∧
    autoResolve (-1) (-1) ["Signal_Power_MHz", "Level"] true (some ',') [] = (0, 1) := by
  constructor
  · intro headerValues hasHeader delim dataLines f0 p0 ft pt hf hp hidx
    constructor
    · intro hscore
      unfold autoResolve
      rw [hf, hp]
      have hnot : ¬ f0.index ≠ p0.index := by simp [hidx]
      have hlt : p0.powerScore < f0.freqScore := hscore
      simp only [hnot, if_false, hlt, if_true, hidx]
      simp
    · intro hscore
      unfold autoResolve
      rw [hf, hp]
      have hnot : ¬ f0.index ≠ p0.index := by simp [hidx]
      have hnlt : ¬ p0.powerScore < f0.freqScore := by omega
      simp only [hnot, if_false, hnlt, hidx]
      simp
  · with_unfolding_all rfl

/-- C1 witness: the single header `"freq_mhz_db"` matches both keyword lists
with frequency score 3 and power score 1, so the conflicted column goes to
frequency and power falls through to an exhausted list, leaving `-1`. -/
theorem c1_witness :
    autoResolve (-1) (-1) ["freq_mhz_db"] true none [] = ((0 : ℤ), (-1 : ℤ)) :=
  (c1_header_conflict_rule.1 ["freq_mhz_db"] true none [] ⟨0, 3, 1⟩ ⟨0, 3, 1⟩ [] []
    (by with_unfolding_all rfl) (by with_unfolding_all rfl) rfl).1 (by decide)

/-- C2 counterexample: the claim says Path B runs whenever there is no usable
header, including a header that matched no keyword on either axis, and that
it then assigns frequency by the original `numericCount` ranking.  Both parts
fail on the code: (a) with the header `alpha,beta` (no keyword matches) and
fallback-friendly data the parse raises the column-detection error instead of
running the fallback — even though two columns would have qualified; (b) on a
3-column sample whose `numericCount` ranking is `[0, 2, 1]` the fallback
assigns power to column 2 and frequency to column 1, the next distinct column
of the `negativeCount` re-ranking, not column 0, the next distinct column of
the original `numericCount` ranking. -/
theorem c2_counterexample :
    (parseAndAnalyzeCsv ("alpha,beta\n2400,-50\n2401,-60\n2402,-70") {} =
        .error (.columnDetection ("Could not automatically detect the required columns.")
          ["alpha", "beta"] [["2400", "-50"], ["2401", "-60"], ["2402", "-70"]]) ∧
      2 ≤ (survivorsRanked (delimOf ("alpha,beta\n2400,-50\n2401,-60\n2402,-70"))
            (dataLinesOf ("alpha,beta\n2400,-50\n2401,-60\n2402,-70"))).length) ∧
    ((survivorsRanked (some ',') ["1,x,-5", "2,3,-6", "4,5,-7", "8,-9,-10"]).map
        ColStat.index = [0, 2, 1] ∧
      statisticalResolve (-1) (-1) (some ',') ["1,x,-5", "2,3,-6", "4,5,-7", "8,-9,-10"] =
        (1, 2)) := by
  refine ⟨⟨?_, ?_⟩, ?_, ?_⟩
  · with_unfolding_all rfl
  · exact of_decide_eq_true (by with_unfolding_all rfl)
  · with_unfolding_all rfl
  · with_unfolding_all rfl

/-- C2 amended: the statistical fallback runs only when no header was
detected (when a header exists but matched no keyword on either axis, the
resolution block changes nothing and detection fails); over the up-to-20-row
sample it keeps the columns whose numeric count exceeds half the sample size,
assigns power to the head of the `negativeCount`-descending re-ranking (a
column with the most negative values among the survivors), assigns frequency
to the next distinct column in that re-ranking, fails when fewer than two
columns qualify, and on the headerless positive/negative two-column example
assigns column 1 to power and column 0 to frequency. -/
theorem c2_amended_statistical_fallback :
    (∀ (fi₀ pi₀ : ℤ) (hv : List String) (delim : Option Char) (dl : List String),
        (freqCandidatesOf hv = [] ∨ powerCandidatesOf hv = []) →
          autoResolve fi₀ pi₀ hv true delim dl = (fi₀, pi₀)) ∧
    (∀ (fi₀ pi₀ : ℤ) (hv : List String) (delim : Option Char) (dl : List String),
        (freqCandidatesOf hv = [] ∨ powerCandidatesOf hv = []) →
          autoResolve fi₀ pi₀ hv false delim dl = statisticalResolve fi₀ pi₀ delim dl) ∧
    (∀ (delim : Option Char) (dl : List String) (c : ColStat),
        c ∈ survivorsRanked delim dl ↔
          c ∈ columnStatsOf (sampleRowsOf delim dl) ((sampleRowsOf delim dl).headD []).length ∧
          min 20 dl.length < 2 * c.numericCount) ∧
    (∀ (fi₀ pi₀ : ℤ) (delim : Option Char) (dl : List String),
        0 < min 20 dl.length →
        2 ≤ (parseCsvRow delim (dl.headD "")).length →
        2 ≤ (survivorsRanked delim dl).length →
          statisticalResolve fi₀ pi₀ delim dl =
            ((match (survivorsByNeg delim dl).find?
                (fun c => c.index ≠ ((survivorsByNeg delim dl).headD default).index) with
              | some c => (c.index : ℤ)
              | none => -1),
             (((survivorsByNeg delim dl).headD default).index : ℤ)) ∧
          (∀ c ∈ survivorsRanked delim dl,
            c.negativeCount ≤ ((survivorsByNeg delim dl).headD default).negativeCount)) ∧
    (∀ (fi₀ pi₀ : ℤ) (delim : Option Char) (dl : List String),
        (survivorsRanked delim dl).length < 2 →
          statisticalResolve fi₀ pi₀ delim dl = (fi₀, pi₀)) ∧
    statisticalResolve (-1) (-1) (some ',') ["2400,-50", "2450,-60", "2500,-70"] = (0, 1) := by
  refine ⟨?_, ?_, ?_, ?_, ?_, ?_⟩
  · intro fi₀ pi₀ hv delim dl hempty
    unfold autoResolve
    cases hfc : freqCandidatesOf hv with
    | nil => simp
    | cons a l =>
      cases hpc : powerCandidatesOf hv with
      | nil => simp
      | cons b m =>
        rcases hempty with h | h
        · rw [hfc] at h; cases h
        · rw [hpc] at h; cases h
  · intro fi₀ pi₀ hv delim dl hempty
    unfold autoResolve
    cases hfc : freqCandidatesOf hv with
    | nil => simp
    | cons a l =>
      cases hpc : powerCandidatesOf hv with
      | nil => simp
      | cons b m =>
        rcases hempty with h | h
        · rw [hfc] at h; cases h
        · rw [hpc] at h; cases h
  · intro delim dl c
    simp [survivorsRanked, List.mem_insertionSort, List.mem_filter]
  · intro fi₀ pi₀ delim dl h1 h2 h3
    have hlen : (survivorsByNeg delim dl).length = (survivorsRanked delim dl).length := by
      rw [survivorsByNeg, List.length_insertionSort]
    constructor
    · simp only [statisticalResolve]
      rw [if_pos ⟨h1, h2⟩, if_pos h3]
    · intro c hc
      have hsorted : List.Sorted (fun a b : ColStat => b.negativeCount ≤ a.negativeCount)
          (survivorsByNeg delim dl) := List.sorted_insertionSort _ _
      have hne : survivorsByNeg delim dl ≠ [] := by
        intro hemp
        rw [hemp] at hlen
        simp at hlen
        omega
      have hc' : c ∈ survivorsByNeg delim dl := by
        rw [survivorsByNeg, List.mem_insertionSort]
        exact hc
      exact sorted_headD_rel default hsorted hne c hc'
  · intro fi₀ pi₀ delim dl h
    simp only [statisticalResolve]
    by_cases hg : 0 < min 20 dl.length ∧ 2 ≤ (parseCsvRow delim (dl.headD "")).length
    · rw [if_pos hg, if_neg (by omega)]
    · rw [if_neg hg]
  · with_unfolding_all rfl

/-- C2 witness: a header that matched no keywords leaves partially supplied
indices untouched (no fallback), and the fallback conclusions hold at the
concrete headerless sample. -/
theorem c2_witness :
    autoResolve 7 9 ["alpha", "beta"] true (some ',') ["2400,-50"] = (7, 9) ∧
      statisticalResolve (-1) (-1) (some ',') ["2400,-50", "2450,-60", "2500,-70"] =
        ((match (survivorsByNeg (some ',') ["2400,-50", "2450,-60", "2500,-70"]).find?
            (fun c => c.index ≠
              ((survivorsByNeg (some ',') ["2400,-50", "2450,-60", "2500,-70"]).headD
                default).index) with
          | some c => (c.index : ℤ)
          | none => -1),
         (((survivorsByNeg (some ',') ["2400,-50", "2450,-60", "2500,-70"]).headD
            default).index : ℤ)) :=
  ⟨c2_amended_statistical_fallback.1 7 9 ["alpha", "beta"] (some ',') ["2400,-50"]
      (Or.inl (by with_unfolding_all rfl)),
   (c2_amended_statistical_fallback.2.2.2.1 (-1) (-1) (some ',')
      ["2400,-50", "2450,-60", "2500,-70"] (by decide) (by with_unfolding_all rfl)
      (of_decide_eq_true (by with_unfolding_all rfl))).1⟩

theorem orderedInsert_pair (a u : DelimStat) :
    List.orderedInsert (fun x y : DelimStat => x.variance ≤ y.variance) a [u] =
      if a.variance ≤ u.variance then [a, u] else [u, a] := by
  by_cases h : a.variance ≤ u.variance
  · simp [List.orderedInsert, h]
  · simp [List.orderedInsert, h]

theorem head?_orderedInsert (a u : DelimStat) (rest : List DelimStat) :
    (List.orderedInsert (fun x y : DelimStat => x.variance ≤ y.variance) a (u :: rest)).head? =
      some (if a.variance ≤ u.variance then a else u) := by
  by_cases h : a.variance ≤ u.variance
  · simp [List.orderedInsert, h]
  · simp [List.orderedInsert, h]

theorem detect_eq (lines : List String) :
    detectDelimiter lines =
      ((List.insertionSort (fun a b : DelimStat => a.variance ≤ b.variance)
          (([',', ';', '\t'].map (delimStatFor lines)).filter
            (fun s => s.valid && decide (s.variance < 1 / 4)))).head?).map
        (fun s => s.d) := by
  simp only [detectDelimiter]
  cases h : List.insertionSort (fun a b : DelimStat => a.variance ≤ b.variance)
      (([',', ';', '\t'].map (delimStatFor lines)).filter
        (fun s => s.valid && decide (s.variance < 1 / 4))) with
  | nil => rfl
  | cons c t => rfl

theorem delimStatFor_d (lines : List String) (d : Char) : (delimStatFor lines d).d = d := by
  simp only [delimStatFor]
  split
  · rfl
  · rfl

/-- Full characterization of the delimiter detector: either no candidate
survives the filter and the result is the whitespace fallback, or the result
is a surviving candidate with the least variance, earliest in the priority
order among equal-variance survivors. -/
theorem detectDelimiter_characterization (lines : List String) :
    (detectDelimiter lines = none ∧ ∀ d' ∈ delimCandidates, survives lines d' = false) ∨
    (∃ d, detectDelimiter lines = some d ∧ d ∈ delimCandidates ∧ survives lines d = true ∧
      ∀ d' ∈ delimCandidates, survives lines d' = true →
        varOf lines d ≤ varOf lines d' ∧
          (varOf lines d' ≤ varOf lines d → prio d ≤ prio d')) := by
  have hdet := detect_eq lines
  by_cases pA : survives lines ',' = true
  all_goals by_cases pB : survives lines ';' = true
  all_goals by_cases pC : survives lines '\t' = true
  all_goals simp only [Bool.not_eq_true] at pA pB pC
  all_goals simp only [survives] at pA pB pC
  all_goals rw [show ([',', ';', '\t'].map (delimStatFor lines)).filter
      (fun s => s.valid && decide (s.variance < 1 / 4)) =
      ([delimStatFor lines ',', delimStatFor lines ';', delimStatFor lines '\t']).filter
      (fun s => s.valid && decide (s.variance < 1 / 4)) from rfl,
    List.filter_cons, List.filter_cons, List.filter_cons, List.filter_nil, pA, pB, pC] at hdet
  all_goals try simp only [show ((true = true) = True) from by simp,
    show ((false = true) = False) from by simp, if_true, if_false] at hdet
  -- from here, each of the 8 survivor patterns has a concrete candidate list
  · -- all three survive
    rw [show List.insertionSort (fun a b : DelimStat => a.variance ≤ b.variance)
        [delimStatFor lines ',', delimStatFor lines ';', delimStatFor lines '\t'] =
        List.orderedInsert (fun a b : DelimStat => a.variance ≤ b.variance)
          (delimStatFor lines ',')
          (List.orderedInsert (fun a b : DelimStat => a.variance ≤ b.variance)
            (delimStatFor lines ';') [delimStatFor lines '\t']) from by
      simp [List.insertionSort, List.orderedInsert], orderedInsert_pair] at hdet
    by_cases hBC : (delimStatFor lines ';').variance ≤ (delimStatFor lines '\t').variance
    · rw [if_pos hBC, head?_orderedInsert] at hdet
      by_cases hAB : (delimStatFor lines ',').variance ≤ (delimStatFor lines ';').variance
      · rw [if_pos hAB] at hdet
        refine Or.inr ⟨',', ?_, by decide, pA, ?_⟩
        · rw [hdet]
          simp [delimStatFor_d]
        · intro d' hmem hs'
          have hmem' : d' = ',' ∨ d' = ';' ∨ d' = '\t' := by
            simpa [delimCandidates] using hmem
          rcases hmem' with rfl | rfl | rfl
          · exact ⟨le_refl _, fun _ => le_refl _⟩
          · exact ⟨hAB, fun _ => by decide⟩
          · exact ⟨le_trans hAB hBC, fun _ => by decide⟩
      · rw [if_neg hAB] at hdet
        have hBA : (delimStatFor lines ';').variance < (delimStatFor lines ',').variance := lt_of_not_le hAB
        refine Or.inr ⟨';', ?_, by decide, pB, ?_⟩
        · rw [hdet]
          simp [delimStatFor_d]
        · intro d' hmem hs'
          have hmem' : d' = ',' ∨ d' = ';' ∨ d' = '\t' := by
            simpa [delimCandidates] using hmem
          rcases hmem' with rfl | rfl | rfl
          · exact ⟨le_of_lt hBA, fun h => absurd h (not_le_of_lt hBA)⟩
          · exact ⟨le_refl _, fun _ => le_refl _⟩
          · exact ⟨hBC, fun _ => by decide⟩
    · rw [if_neg hBC, head?_orderedInsert] at hdet
      have hCB : (delimStatFor lines '\t').variance < (delimStatFor lines ';').variance := lt_of_not_le hBC
      by_cases hAC : (delimStatFor lines ',').variance ≤ (delimStatFor lines '\t').variance
      · rw [if_pos hAC] at hdet
        refine Or.inr ⟨',', ?_, by decide, pA, ?_⟩
        · rw [hdet]
          simp [delimStatFor_d]
        · intro d' hmem hs'
          have hmem' : d' = ',' ∨ d' = ';' ∨ d' = '\t' := by
            simpa [delimCandidates] using hmem
          rcases hmem' with rfl | rfl | rfl
          · exact ⟨le_refl _, fun _ => le_refl _⟩
          · exact ⟨le_trans hAC (le_of_lt hCB), fun _ => by decide⟩
          · exact ⟨hAC, fun _ => by decide⟩
      · rw [if_neg hAC] at hdet
        have hCA : (delimStatFor lines '\t').variance < (delimStatFor lines ',').variance := lt_of_not_le hAC
        refine Or.inr ⟨'\t', ?_, by decide, pC, ?_⟩
        · rw [hdet]
          simp [delimStatFor_d]
        · intro d' hmem hs'
          have hmem' : d' = ',' ∨ d' = ';' ∨ d' = '\t' := by
            simpa [delimCandidates] using hmem
          rcases hmem' with rfl | rfl | rfl
          · exact ⟨le_of_lt hCA, fun h => absurd h (not_le_of_lt hCA)⟩
          · exact ⟨le_of_lt hCB, fun h => absurd h (not_le_of_lt hCB)⟩
          · exact ⟨le_refl _, fun _ => le_refl _⟩
  · -- comma and semicolon survive
    rw [show List.insertionSort (fun a b : DelimStat => a.variance ≤ b.variance)
        [delimStatFor lines ',', delimStatFor lines ';'] =
        List.orderedInsert (fun a b : DelimStat => a.variance ≤ b.variance)
          (delimStatFor lines ',') [delimStatFor lines ';'] from by
      simp [List.insertionSort, List.orderedInsert], orderedInsert_pair] at hdet
    by_cases hAB : (delimStatFor lines ',').variance ≤ (delimStatFor lines ';').variance
    · rw [if_pos hAB] at hdet
      refine Or.inr ⟨',', ?_, by decide, pA, ?_⟩
      · rw [hdet]
        simp [delimStatFor_d]
      · intro d' hmem hs'
        have hmem' : d' = ',' ∨ d' = ';' ∨ d' = '\t' := by
          simpa [delimCandidates] using hmem
        rcases hmem' with rfl | rfl | rfl
        · exact ⟨le_refl _, fun _ => le_refl _⟩
        · exact ⟨hAB, fun _ => by decide⟩
        · exact absurd (show ((delimStatFor lines '\t').valid && decide ((delimStatFor lines '\t').variance < 1 / 4)) = true from hs') (by rw [pC]; simp)
    · rw [if_neg hAB] at hdet
      have hBA : (delimStatFor lines ';').variance < (delimStatFor lines ',').variance := lt_of_not_le hAB
      refine Or.inr ⟨';', ?_, by decide, pB, ?_⟩
      · rw [hdet]
        simp [delimStatFor_d]
      · intro d' hmem hs'
        have hmem' : d' = ',' ∨ d' = ';' ∨ d' = '\t' := by
          simpa [delimCandidates] using hmem
        rcases hmem' with rfl | rfl | rfl
        · exact ⟨le_of_lt hBA, fun h => absurd h (not_le_of_lt hBA)⟩
        · exact ⟨le_refl _, fun _ => le_refl _⟩
        · exact absurd (show ((delimStatFor lines '\t').valid && decide ((delimStatFor lines '\t').variance < 1 / 4)) = true from hs') (by rw [pC]; simp)
  · -- comma and tab survive
    rw [show List.insertionSort (fun a b : DelimStat => a.variance ≤ b.variance)
        [delimStatFor lines ',', delimStatFor lines '\t'] =
        List.orderedInsert (fun a b : DelimStat => a.variance ≤ b.variance)
          (delimStatFor lines ',') [delimStatFor lines '\t'] from by
      simp [List.insertionSort, List.orderedInsert], orderedInsert_pair] at hdet
    by_cases hAC : (delimStatFor lines ',').variance ≤ (delimStatFor lines '\t').variance
    · rw [if_pos hAC] at hdet
      refine Or.inr ⟨',', ?_, by decide, pA, ?_⟩
      · rw [hdet]
        simp [delimStatFor_d]
      · intro d' hmem hs'
        have hmem' : d' = ',' ∨ d' = ';' ∨ d' = '\t' := by
          simpa [delimCandidates] using hmem
        rcases hmem' with rfl | rfl | rfl
        · exact ⟨le_refl _, fun _ => le_refl _⟩
        · exact absurd (show ((delimStatFor lines ';').valid && decide ((delimStatFor lines ';').variance < 1 / 4)) = true from hs') (by rw [pB]; simp)
        · exact ⟨hAC, fun _ => by decide⟩
    · rw [if_neg hAC] at hdet
      have hCA : (delimStatFor lines '\t').variance < (delimStatFor lines ',').variance := lt_of_not_le hAC
      refine Or.inr ⟨'\t', ?_, by decide, pC, ?_⟩
      · rw [hdet]
        simp [delimStatFor_d]
      · intro d' hmem hs'
        have hmem' : d' = ',' ∨ d' = ';' ∨ d' = '\t' := by
          simpa [delimCandidates] using hmem
        rcases hmem' with rfl | rfl | rfl
        · exact ⟨le_of_lt hCA, fun h => absurd h (not_le_of_lt hCA)⟩
        · exact absurd (show ((delimStatFor lines ';').valid && decide ((delimStatFor lines ';').variance < 1 / 4)) = true from hs') (by rw [pB]; simp)
        · exact ⟨le_refl _, fun _ => le_refl _⟩
  · -- only comma survives
    refine Or.inr ⟨',', ?_, by decide, pA, ?_⟩
    · rw [hdet]
      simp [List.insertionSort, List.orderedInsert, delimStatFor_d]
    · intro d' hmem hs'
      have hmem' : d' = ',' ∨ d' = ';' ∨ d' = '\t' := by
        simpa [delimCandidates] using hmem
      rcases hmem' with rfl | rfl | rfl
      · exact ⟨le_refl _, fun _ => le_refl _⟩
      · exact absurd (show ((delimStatFor lines ';').valid && decide ((delimStatFor lines ';').variance < 1 / 4)) = true from hs') (by rw [pB]; simp)
      · exact absurd (show ((delimStatFor lines '\t').valid && decide ((delimStatFor lines '\t').variance < 1 / 4)) = true from hs') (by rw [pC]; simp)
  · -- semicolon and tab survive
    rw [show List.insertionSort (fun a b : DelimStat => a.variance ≤ b.variance)
        [delimStatFor lines ';', delimStatFor lines '\t'] =
        List.orderedInsert (fun a b : DelimStat => a.variance ≤ b.variance)
          (delimStatFor lines ';') [delimStatFor lines '\t'] from by
      simp [List.insertionSort, List.orderedInsert], orderedInsert_pair] at hdet
    by_cases hBC : (delimStatFor lines ';').variance ≤ (delimStatFor lines '\t').variance
    · rw [if_pos hBC] at hdet
      refine Or.inr ⟨';', ?_, by decide, pB, ?_⟩
      · rw [hdet]
        simp [delimStatFor_d]
      · intro d' hmem hs'
        have hmem' : d' = ',' ∨ d' = ';' ∨ d' = '\t' := by
          simpa [delimCandidates] using hmem
        rcases hmem' with rfl | rfl | rfl
        · exact absurd (show ((delimStatFor lines ',').valid && decide ((delimStatFor lines ',').variance < 1 / 4)) = true from hs') (by rw [pA]; simp)
        · exact ⟨le_refl _, fun _ => le_refl _⟩
        · exact ⟨hBC, fun _ => by decide⟩
    · rw [if_neg hBC] at hdet
      have hCB : (delimStatFor lines '\t').variance < (delimStatFor lines ';').variance := lt_of_not_le hBC
      refine Or.inr ⟨'\t', ?_, by decide, pC, ?_⟩
      · rw [hdet]
        simp [delimStatFor_d]
      · intro d' hmem hs'
        have hmem' : d' = ',' ∨ d' = ';' ∨ d' = '\t' := by
          simpa [delimCandidates] using hmem
        rcases hmem' with rfl | rfl | rfl
        · exact absurd (show ((delimStatFor lines ',').valid && decide ((delimStatFor lines ',').variance < 1 / 4)) = true from hs') (by rw [pA]; simp)
        · exact ⟨le_of_lt hCB, fun h => absurd h (not_le_of_lt hCB)⟩
        · exact ⟨le_refl _, fun _ => le_refl _⟩
  · -- only semicolon survives
    refine Or.inr ⟨';', ?_, by decide, pB, ?_⟩
    · rw [hdet]
      simp [List.insertionSort, List.orderedInsert, delimStatFor_d]
    · intro d' hmem hs'
      have hmem' : d' = ',' ∨ d' = ';' ∨ d' = '\t' := by
        simpa [delimCandidates] using hmem
      rcases hmem' with rfl | rfl | rfl
      · exact absurd (show ((delimStatFor lines ',').valid && decide ((delimStatFor lines ',').variance < 1 / 4)) = true from hs') (by rw [pA]; simp)
      · exact ⟨le_refl _, fun _ => le_refl _⟩
      · exact absurd (show ((delimStatFor lines '\t').valid && decide ((delimStatFor lines '\t').variance < 1 / 4)) = true from hs') (by rw [pC]; simp)
  · -- only tab survives
    refine Or.inr ⟨'\t', ?_, by decide, pC, ?_⟩
    · rw [hdet]
      simp [List.insertionSort, List.orderedInsert, delimStatFor_d]
    · intro d' hmem hs'
      have hmem' : d' = ',' ∨ d' = ';' ∨ d' = '\t' := by
        simpa [delimCandidates] using hmem
      rcases hmem' with rfl | rfl | rfl
      · exact absurd (show ((delimStatFor lines ',').valid && decide ((delimStatFor lines ',').variance < 1 / 4)) = true from hs') (by rw [pA]; simp)
      · exact absurd (show ((delimStatFor lines ';').valid && decide ((delimStatFor lines ';').variance < 1 / 4)) = true from hs') (by rw [pB]; simp)
      · exact ⟨le_refl _, fun _ => le_refl _⟩
  · -- nothing survives
    refine Or.inl ⟨by rw [hdet]; simp [List.insertionSort], ?_⟩
    intro d' hmem
    have hmem' : d' = ',' ∨ d' = ';' ∨ d' = '\t' := by
      simpa [delimCandidates] using hmem
    rcases hmem' with rfl | rfl | rfl
    · exact pA
    · exact pB
    · exact pC

/-- C4 counterexample: on a 10-line sample where only 3 lines contain a
semicolon, the claim's discard rule (fewer than half of the sampled lines)
discards semicolon — leaving no survivor, hence the whitespace default — but
the detector (whose threshold is half of `min (number of lines) 5`, and which
also requires standard deviation below 0.5) selects semicolon. -/
theorem c4_counterexample :
    claimedDiscard ["a;b", "c;d", "e;f", "x1", "x2", "x3", "x4", "x5", "x6", "x7"] ';' ∧
      detectDelimiter ["a;b", "c;d", "e;f", "x1", "x2", "x3", "x4", "x5", "x6", "x7"] =
        some ';' := by
  constructor
  · unfold claimedDiscard
    exact of_decide_eq_true (by with_unfolding_all rfl)
  · with_unfolding_all rfl

/-- C4 amended: delimiter detection scores only comma, semicolon and tab; a
candidate survives when at least half of `min (number of sampled lines) 5`
lines split into more than one column under it and its column-count standard
deviation is below 0.5; the selected delimiter is a surviving candidate of
minimal variance, earliest in the priority order comma, semicolon, tab among
equal-variance survivors; when no candidate survives the detector returns the
whitespace-run fallback (it never fails), and a pure comma-separated sample
with consistent column counts selects comma even with whitespace inside
fields. -/
theorem c4_amended_delimiter_detection :
    (∀ (lines : List String) (d : Char),
        detectDelimiter lines = some d →
          d ∈ delimCandidates ∧ survives lines d = true ∧
          ∀ d' ∈ delimCandidates, survives lines d' = true →
            varOf lines d ≤ varOf lines d' ∧
              (varOf lines d' ≤ varOf lines d → prio d ≤ prio d')) ∧
    (∀ (lines : List String),
        (∀ d' ∈ delimCandidates, survives lines d' = false) →
          detectDelimiter lines = none) ∧
    (∀ (lines : List String) (d' : Char), d' ∈ delimCandidates →
        survives lines d' = true → (detectDelimiter lines).isSome = true) ∧
    (∀ row, parseCsvRow none row = splitWsRuns row) ∧
    detectDelimiter ["1.0 3,2", "2.0 4,5", "3.0 5,6"] = some ',' := by
  refine ⟨?_, ?_, ?_, fun _ => rfl, by with_unfolding_all rfl⟩
  · intro lines d hd
    rcases detectDelimiter_characterization lines with ⟨hnone, -⟩ | ⟨d0, hd0, hmem, hs, hmin⟩
    · rw [hnone] at hd
      cases hd
    · rw [hd0] at hd
      injection hd with hd
      subst hd
      exact ⟨hmem, hs, hmin⟩
  · intro lines hall
    rcases detectDelimiter_characterization lines with ⟨hnone, -⟩ | ⟨d0, hd0, hmem, hs, -⟩
    · exact hnone
    · rw [hall d0 hmem] at hs
      cases hs
  · intro lines d' hmem hs
    rcases detectDelimiter_characterization lines with ⟨-, hall⟩ | ⟨d0, hd0, -, -, -⟩
    · rw [hall d' hmem] at hs
      cases hs
    · rw [hd0]
      rfl

/-- C4 witness: the amended characterization applied to a concrete sample on
which comma survives and is selected. -/
theorem c4_witness :
    (',' ∈ delimCandidates ∧ survives ["1,2", "3,4"] ',' = true ∧
      ∀ d' ∈ delimCandidates, survives ["1,2", "3,4"] d' = true →
        varOf ["1,2", "3,4"] ',' ≤ varOf ["1,2", "3,4"] d' ∧
          (varOf ["1,2", "3,4"] d' ≤ varOf ["1,2", "3,4"] ',' → prio ',' ≤ prio d')) :=
  c4_amended_delimiter_detection.1 ["1,2", "3,4"] ',' (by with_unfolding_all rfl)

end PhantomBand
